import Mathlib

/-!
Verification of the `uvn` core (`src/uvn/core.py`): the environment-handle
metadata model and the dependency-export engine, modelled as pure functions
over `List Char` strings.  Subprocess results (`uv pip freeze`, `uv pip tree`,
`uv lock`) and filesystem facts (symlink target, directory entries) are fields
of the model structures; everything the Python code computes from them is
translated function by function.
-/

namespace Uvn

/-- Characters of a string literal. -/
def strL (s : String) : List Char := s.data

/-! ### Python string primitives -/

/-- Split a string at the first occurrence of `sep`; `none` when `sep` does
not occur.  Helper for `str.split(sep, maxsplit)`. -/
def splitFirst (sep : Char) : List Char → Option (List Char × List Char)
  | [] => none
  | c :: cs =>
    if c = sep then some ([], cs)
    else
      match splitFirst sep cs with
      | none => none
      | some (pre, post) => some (c :: pre, post)

/-- Python `str.split(sep, maxsplit)` for a single-character separator and a
nonnegative `maxsplit` (the only uses in `core.py`). -/
def pySplit (sep : Char) : Nat → List Char → List (List Char)
  | 0, s => [s]
  | n + 1, s =>
    match splitFirst sep s with
    | none => [s]
    | some (pre, post) => pre :: pySplit sep n post

/-- Python `str.rsplit(sep, maxsplit)`: split from the right. -/
def pyRsplit (sep : Char) (n : Nat) (s : List Char) : List (List Char) :=
  ((pySplit sep n s.reverse).map List.reverse).reverse

/-- Worker for `pyReplace`: `skip` counts pattern characters already consumed
by the last match (replacements are non-overlapping, left to right). -/
def replaceGo (old new : List Char) : Nat → List Char → List Char
  | _, [] => []
  | skip + 1, _ :: r => replaceGo old new skip r
  | 0, c :: r =>
    if old.isPrefixOf (c :: r) then new ++ replaceGo old new (old.length - 1) r
    else c :: replaceGo old new 0 r

/-- Python `str.replace(old, new)` for nonempty `old` (the only calls in
`core.py` use `" v"`, `"=="` and `"\n"`). -/
def pyReplace (old new s : List Char) : List Char := replaceGo old new 0 s

/-- The character set stripped by Python `str.strip()` (characters for which
`str.isspace` holds). -/
def pyIsSpace (c : Char) : Bool :=
  [' ', '\t', '\n', '\r', '\x0b', '\x0c', '\x1c', '\x1d', '\x1e', '\x1f',
    '\x85', '\xa0', '\u1680', '\u2000', '\u2001', '\u2002', '\u2003',
    '\u2004', '\u2005', '\u2006', '\u2007', '\u2008', '\u2009', '\u200a',
    '\u2028', '\u2029', '\u202f', '\u205f', '\u3000'].contains c

/-- Python `str.strip()`: drop whitespace from both ends. -/
def pyStrip (s : List Char) : List Char :=
  ((s.dropWhile pyIsSpace).reverse.dropWhile pyIsSpace).reverse

/-- Line boundaries recognised by Python `str.splitlines`. -/
def isLineBreak (c : Char) : Bool :=
  ['\n', '\r', '\x0b', '\x0c', '\x1c', '\x1d', '\x1e', '\x85',
    '\u2028', '\u2029'].contains c

/-- Worker for `pySplitlines`: `acc` holds the current line reversed. -/
def slGo : List Char → List Char → List (List Char)
  | acc, [] => [acc.reverse]
  | acc, '\r' :: '\n' :: r => acc.reverse :: (if r.isEmpty then [] else slGo [] r)
  | acc, c :: r =>
    if isLineBreak c then acc.reverse :: (if r.isEmpty then [] else slGo [] r)
    else slGo (c :: acc) r

/-- Python `str.splitlines()`. -/
def pySplitlines (s : List Char) : List (List Char) :=
  if s.isEmpty then [] else slGo [] s

/-- Python substring containment `pat in s`. -/
def containsSub (pat : List Char) : List Char → Bool
  | [] => pat.isEmpty
  | c :: r => pat.isPrefixOf (c :: r) || containsSub pat r

/-- Number of positions of `s` at which `pat` occurs. -/
def countSub (pat : List Char) : List Char → Nat
  | [] => 0
  | c :: r => (if pat.isPrefixOf (c :: r) then 1 else 0) + countSub pat r

/-! ### The environment handle

`UVN.__init__` resolves the path, requires the interpreter to exist, and runs
it to obtain `version`; `full_version` is read from the installer symlink's
target (`Path(os.readlink(self.python)).parts[-3]`).  The model stores these
observations, together with the stdout/exit status of the `uv pip freeze`,
`uv pip tree -d 0` and `uv lock` subprocess calls the export engine makes. -/

structure UVN where
  /-- `self.path`, the handle's identity. -/
  path : List Char
  /-- `self.path.stat().st_ctime`, the creation time used by `__lt__`. -/
  ctime : Nat
  /-- `self.name` (`self.path.name`). -/
  name : List Char
  /-- `self.version`: the runtime-reported version captured at construction. -/
  version : List Char
  /-- `self.full_version`: `parts[-3]` of the interpreter symlink's target. -/
  full_version : List Char
  /-- Whether `uv pip freeze` exits with code 0 in this environment. -/
  pipFreezeOk : Bool
  /-- Stdout of `uv pip freeze`. -/
  pipFreezeOut : List Char
  /-- Whether `uv pip tree -d 0` exits with code 0 in this environment. -/
  pipTreeOk : Bool
  /-- Stdout of `uv pip tree -d 0`. -/
  pipTreeOut : List Char
  /-- Whether `uv lock` on the synthesised project exits with code 0. -/
  lockOk : Bool
  /-- Content of the `uv.lock` file produced by `uv lock`. -/
  lockText : List Char
  deriving DecidableEq

/-- `self.full_version.split("-", 1)[0]`.  In `core.py` a missing index would
raise `IndexError`; the `getD` default is only reachable for inputs on which
Python would raise, and every theorem below stays in bounds. -/
def UVN.implementation (h : UVN) : List Char :=
  (pySplit '-' 1 h.full_version).getD 0 []

/-- `self.full_version.split("-", 2)[1]`. -/
def UVN.version_segment (h : UVN) : List Char :=
  (pySplit '-' 2 h.full_version).getD 1 []

/-- `"freethreaded" in self.full_version`. -/
def UVN.is_free_threaded (h : UVN) : Bool :=
  containsSub (strL "freethreaded") h.full_version

/-- `self.full_version.split("-", 3)[2]`. -/
def UVN.system (h : UVN) : List Char :=
  (pySplit '-' 3 h.full_version).getD 2 []

/-- `self.full_version.rsplit("-", 2)[1]`. -/
def UVN.machine (h : UVN) : List Char :=
  (pyRsplit '-' 2 h.full_version).getD 1 []

/-- `self.full_version.rsplit("-", 1)[1]`. -/
def UVN.libc (h : UVN) : List Char :=
  (pyRsplit '-' 1 h.full_version).getD 1 []

/-! ### Split lemmas -/

theorem splitFirst_of_not_mem {sep : Char} {s : List Char} (h : sep ∉ s) :
    splitFirst sep s = none := by
  induction s with
  | nil => rfl
  | cons c cs ih =>
    have hc : ¬ c = sep := fun e => h (e ▸ List.mem_cons_self c cs)
    have hcs : sep ∉ cs := fun m => h (List.mem_cons_of_mem c m)
    simp [splitFirst, hc, ih hcs]

theorem splitFirst_append {sep : Char} {pre : List Char} (post : List Char)
    (h : sep ∉ pre) : splitFirst sep (pre ++ sep :: post) = some (pre, post) := by
  induction pre with
  | nil => simp [splitFirst]
  | cons c cs ih =>
    have hc : ¬ c = sep := fun e => h (e ▸ List.mem_cons_self c cs)
    have hcs : sep ∉ cs := fun m => h (List.mem_cons_of_mem c m)
    simp [splitFirst, hc, ih hcs]

theorem pySplit_append {sep : Char} {pre : List Char} (n : Nat) (post : List Char)
    (h : sep ∉ pre) :
    pySplit sep (n + 1) (pre ++ sep :: post) = pre :: pySplit sep n post := by
  simp [pySplit, splitFirst_append post h]

theorem pySplit_of_not_mem {sep : Char} {s : List Char} (n : Nat) (h : sep ∉ s) :
    pySplit sep n s = [s] := by
  cases n with
  | zero => rfl
  | succ n => simp [pySplit, splitFirst_of_not_mem h]

theorem reverse_seg (pre : List Char) (sep : Char) (post : List Char) :
    (pre ++ sep :: post).reverse = post.reverse ++ sep :: pre.reverse := by
  simp

/-! ### Error taxonomy (`UVN.Error` subclasses in `core.py`) -/

/-- Errors raised by the export engine and by `create`/`remove`/`export`. -/
inductive Err where
  | uvError (msg : List Char)
  | missingError (msg : List Char)
  | corruptedError (msg : List Char)
  | existsError (msg : List Char)
  | featureError (msg : List Char)
  deriving DecidableEq

/-- The only errors `UVN.__init__` raises.  Both derive from
`EnvironmentError` (= `OSError`) in Python, which is exactly what
`UVN.list` catches. -/
inductive InitErr where
  | missingError (msg : List Char)
  | corruptedError (msg : List Char)
  deriving DecidableEq

/-- Inclusion of construction errors into the full taxonomy. -/
def InitErr.toErr : InitErr → Err
  | .missingError m => Err.missingError m
  | .corruptedError m => Err.corruptedError m

/-- Whether a result is a raised `FeatureError`. -/
def isFeatureError {α : Type} : Except Err α → Bool
  | .error (.featureError _) => true
  | _ => false

/-! ### The dependency-export engine -/

/-- `UVN.get_requirements(self, *, full, exact)`: chooses `uv pip freeze`
(full) or `uv pip tree -d 0`, raises `UVError` on a non-zero exit, applies
the specifier rewrites, and prepends the `# full_version` header. -/
def UVN.get_requirements (h : UVN) (full exact : Bool) : Except Err (List Char) :=
  let resOk := if full then h.pipFreezeOk else h.pipTreeOk
  let out := if full then h.pipFreezeOut else h.pipTreeOut
  if resOk = false then
    .error (.uvError (strL "Could not run pip in `" ++ h.name ++ strL "`!"))
  else
    let req :=
      if full = false then pyReplace (strL " v") (strL (if exact then "==" else ">=")) out
      else if exact = false then pyReplace (strL "==") (strL ">=") out
      else out
    .ok (pyStrip (strL "# " ++ h.full_version ++ '\n' :: req))

/-- `UVN.get_dependencies(self, *, full, exact)`.  `req[0]` is modelled with
`getD`; the requirement text always starts with `#` after `strip`, so its
`splitlines` is never empty and Python's `IndexError` is unreachable. -/
def UVN.get_dependencies (h : UVN) (full exact : Bool) : Except Err (List Char) :=
  match h.get_requirements full exact with
  | .error e => .error e
  | .ok reqText =>
    let req := pySplitlines reqText
    let dep0 := List.intercalate (strL "\n")
      ((req.drop 1).map (fun r => strL "    \"" ++ r ++ strL "\","))
    let dep := if dep0 = [] then [] else strL "\ndependencies = [\n" ++ dep0 ++ strL "\n]"
    let ver := if exact then strL "==" ++ h.version_segment else strL ">=" ++ h.version
    .ok (strL "requires-python = \"" ++ ver ++ strL "\" " ++ req.getD 0 [] ++ dep)

/-! Model of `re.sub("^(?:#!.*\n)?# /// script\n(# .*\n)*?# ///\n", "\n", text)`.
The pattern is anchored at position 0 and, matching Python's backtracking
order, the optional shebang group commits whenever the text starts with `#!`
followed by a newline (retrying without it can never succeed because the
following literal requires `# ` at position 0), and the lazy group stops at
the first `# ///` line. -/

/-- Scan `(# .*\n)*?# ///\n` lazily.  `atStart = true` at a line start,
`false` while consuming the `.*\n` tail of a `# ` line.  Returns the rest of
the text after the matched `# ///\n`. -/
def metaScan : Bool → List Char → Option (List Char)
  | true, '#' :: ' ' :: '/' :: '/' :: '/' :: '\n' :: rest => some rest
  | true, '#' :: ' ' :: rest => metaScan false rest
  | true, _ => none
  | false, '\n' :: rest => metaScan true rest
  | false, _ :: rest => metaScan false rest
  | false, [] => none

/-- Consume up to and including the first newline (`.*\n` of the shebang). -/
def dropToNL : List Char → Option (List Char)
  | [] => none
  | '\n' :: r => some r
  | _ :: r => dropToNL r

/-- Consume the optional shebang line `#!.*\n`. -/
def dropShebangLine : List Char → Option (List Char)
  | '#' :: '!' :: r => dropToNL r
  | _ => none

/-- Match `# /// script\n(# .*\n)*?# ///\n` at the current position. -/
def blockTail (s : List Char) : Option (List Char) :=
  if (strL "# /// script\n").isPrefixOf s then metaScan true (s.drop 13) else none

/-- The whole `re.sub(...)` call: replace the matched block by `"\n"`, or
return the text unchanged when the pattern does not match.  (`^` without
`re.MULTILINE` anchors at position 0, so at most one replacement happens.) -/
def reSubBlock (s : List Char) : List Char :=
  let tail :=
    match dropShebangLine s with
    | some r => blockTail r
    | none => blockTail s
  match tail with
  | some rest => '\n' :: rest
  | none => s

/-- `UVN.get_script_metadata(self, text, *, full, exact)`. -/
def UVN.get_script_metadata (h : UVN) (text : List Char) (full exact : Bool) :
    Except Err (List Char) :=
  let text2 := if text = [] then text else reSubBlock text
  match h.get_dependencies full exact with
  | .error e => .error e
  | .ok d =>
    .ok (strL "#!/usr/bin/env -S uv run\n# /// script\n# " ++
          pyReplace (strL "\n") (strL "\n# ") d ++ strL "\n# ///" ++ text2)

/-- `UVN.get_pyproject(self, text, *, full, exact)`: refuses nonempty input,
otherwise prepends the `[project]` stanza to the dependencies. -/
def UVN.get_pyproject (h : UVN) (text : List Char) (full exact : Bool) :
    Except Err (List Char) :=
  if text = [] then
    match h.get_dependencies full exact with
    | .error e => .error e
    | .ok d =>
      .ok (strL "[project]\nname = \"" ++ h.name ++
            strL "\"\ndynamic = [\"version\"]\n" ++ d)
  else .error (.featureError (strL "Cannot yet update TOML files."))

/-- `UVN.get_lock(self, *, quiet)`: writes `get_pyproject(full=True,
exact=True)` into a scoped temporary directory, runs `uv lock` there, and
reads back `uv.lock` on exit code 0.  The temporary directory itself has no
observable trace in the result and is not modelled; `quiet` only silences
the subprocess. -/
def UVN.get_lock (h : UVN) (_quiet : Bool) : Except Err (List Char) :=
  match h.get_pyproject [] true true with
  | .error e => .error e
  | .ok _pyproject =>
    if h.lockOk then .ok h.lockText
    else .error (.uvError (strL "Could not generate the lock file for `" ++
      h.name ++ strL "`!"))

/-! ### Directory listing and removal -/

deriving instance DecidableEq for Except

/-- One entry of `root.iterdir()`, with the outcome `UVN(path)` would have
on it. -/
structure DirEntry where
  path : List Char
  ctime : Nat
  is_dir : Bool
  check : Except InitErr UVN
  deriving DecidableEq

/-- `UVN.list(root)`: iterate the entries in directory order, keep
directories whose construction succeeds, silently drop entries whose
construction raises (`except EnvironmentError: pass` — both `MissingError`
and `CorruptedError` derive from it). -/
def UVN.list : List DirEntry → List UVN
  | [] => []
  | e :: rest =>
    if e.is_dir then
      match e.check with
      | .ok env => env :: UVN.list rest
      | .error _ => UVN.list rest
    else UVN.list rest

/-- `root / name` of `pathlib` for a plain relative segment. -/
def pathJoin (root name : List Char) : List Char := root ++ '/' :: name

/-- `path.exists()` over the modelled directory entries. -/
def pathExists (fs : List DirEntry) (p : List Char) : Bool :=
  fs.any (fun e => e.path == p)

/-- `shutil.rmtree(path)`: the entry (with its whole subtree, which the
model keeps inside the entry) disappears. -/
def rmtree (fs : List DirEntry) (p : List Char) : List DirEntry :=
  fs.filter (fun e => !(e.path == p))

/-- `UVN(path)` looked up in the modelled filesystem: no entry means the
interpreter path cannot exist (`MissingError`), otherwise the entry's
construction outcome. -/
def construct (fs : List DirEntry) (p : List Char) : Except InitErr UVN :=
  match fs.find? (fun e => e.path == p) with
  | none => .error (.missingError (strL "Python interpreter: " ++ p ++ strL "/bin/python"))
  | some e => e.check

/-- The `strict=False` body of `UVN.remove`: delete if the path exists and
report whether a deletion happened. -/
def removeLoose (p : List Char) (fs : List DirEntry) : Bool × List DirEntry :=
  if pathExists fs p then (true, rmtree fs p) else (false, fs)

/-- `UVN.remove(name, *, root, strict)`: with `strict=True` construct first
(surfacing `MissingError`/`CorruptedError`), then fall through to the
unconditional removal. -/
def UVN.remove (name root : List Char) (strict : Bool) (fs : List DirEntry) :
    Except Err (Bool × List DirEntry) :=
  let path := pathJoin root name
  if strict then
    match construct fs path with
    | .error e => .error e.toErr
    | .ok _ => .ok (removeLoose path fs)
  else .ok (removeLoose path fs)

/-! ### Export dispatch -/

/-- The export target: `pathlib` name/suffix, whether the file exists, and
its current content. -/
structure Target where
  name : List Char
  suffix : List Char
  present : Bool
  content : List Char
  deriving DecidableEq

/-- `UVN.export(self, target, *, full, exact, quiet)`: dispatch on the
extension; `None` keyword arguments fall back to each method's own defaults
(`get_requirements`: `full=True, exact=True`; the others: `full=False,
exact=True`).  The final write is modelled as succeeding and returning the
written length, so the `write_text(text) == len(text)` check yields `true`. -/
def UVN.export (h : UVN) (t : Target) (full exact : Option Bool) (quiet : Bool) :
    Except Err Bool :=
  let text :=
    if t.suffix = strL ".txt" then
      h.get_requirements (full.getD true) (exact.getD true)
    else if t.suffix = strL ".toml" then
      h.get_pyproject (if t.present then t.content else []) (full.getD false) (exact.getD true)
    else if t.suffix = strL ".lock" then
      h.get_lock quiet
    else if t.suffix = strL ".py" then
      h.get_script_metadata (if t.present then t.content else []) (full.getD false) (exact.getD true)
    else
      .error (.featureError (strL "Cannot handle this format yet `" ++ t.name ++ strL "`."))
  match text with
  | .error e => .error e
  | .ok txt => .ok (txt.length == txt.length)

/-! ### Substring lemmas -/

theorem containsSub_iff (pat s : List Char) : containsSub pat s = true ↔ pat <:+: s := by
  induction s with
  | nil => simp [containsSub, List.isEmpty_iff]
  | cons c r ih =>
    simp [containsSub, ih, List.isPrefixOf_iff_prefix, List.infix_cons_iff]

theorem isPrefix_no_sep {sep : Char} :
    ∀ {pat a b : List Char}, sep ∉ pat → pat <+: a ++ sep :: b → pat <+: a := by
  intro pat
  induction pat with
  | nil => intro a b _ _; exact List.nil_prefix
  | cons p ps ih =>
    intro a b hs hp
    cases a with
    | nil =>
      rw [List.nil_append, List.cons_prefix_cons] at hp
      exact absurd (hp.1 ▸ List.mem_cons_self p ps) hs
    | cons x a' =>
      rw [List.cons_append, List.cons_prefix_cons] at hp
      have hs' : sep ∉ ps := fun m => hs (List.mem_cons_of_mem p m)
      exact List.cons_prefix_cons.mpr ⟨hp.1, ih hs' hp.2⟩

theorem infix_split {sep : Char} {pat : List Char} (hs : sep ∉ pat) :
    ∀ (a b : List Char), pat <:+: a ++ sep :: b ↔ pat <:+: a ∨ pat <:+: b := by
  intro a b
  constructor
  · induction a with
    | nil =>
      intro hp
      rw [List.nil_append, List.infix_cons_iff] at hp
      rcases hp with hp | hp
      · have : pat <+: ([] : List Char) := isPrefix_no_sep hs (by simpa using hp)
        exact Or.inl (List.prefix_nil.mp this ▸ List.nil_infix)
      · exact Or.inr hp
    | cons x a' ih =>
      intro hp
      rw [List.cons_append, List.infix_cons_iff] at hp
      rcases hp with hp | hp
      · have : pat <+: x :: a' := isPrefix_no_sep hs (by simpa using hp)
        exact Or.inl this.isInfix
      · rcases ih hp with hp' | hp'
        · exact Or.inl (List.infix_cons hp')
        · exact Or.inr hp'
  · rintro (⟨s, t, rfl⟩ | ⟨s, t, rfl⟩)
    · exact ⟨s, t ++ sep :: b, by simp⟩
    · exact ⟨a ++ sep :: s, t, by simp⟩

/-! ### Claim theorems -/

/-- Claim C1: for every `full_version` of exactly the five dash-delimited
segments `impl-ver-sys-mach-libc`, the derived fields recover the original
segments exactly: `implementation` is segment 0, `version_segment` is
segment 1, `system` is segment 2, `machine` is the second-to-last segment,
and `libc` is the last segment. -/
theorem C1_full_version_fields (h : UVN) (s0 s1 s2 s3 s4 : List Char)
    (h0 : '-' ∉ s0) (h1 : '-' ∉ s1) (h2 : '-' ∉ s2) (h3 : '-' ∉ s3) (h4 : '-' ∉ s4)
    (hfv : h.full_version = s0 ++ '-' :: (s1 ++ '-' :: (s2 ++ '-' :: (s3 ++ '-' :: s4)))) :
    h.implementation = s0 ∧ h.version_segment = s1 ∧ h.system = s2 ∧
      h.machine = s3 ∧ h.libc = s4 := by
  have h3' : '-' ∉ s3.reverse := by simpa using h3
  have h4' : '-' ∉ s4.reverse := by simpa using h4
  refine ⟨?_, ?_, ?_, ?_, ?_⟩
  · rw [UVN.implementation, hfv, pySplit_append 0 _ h0]; rfl
  · rw [UVN.version_segment, hfv, pySplit_append 1 _ h0, pySplit_append 0 _ h1]; rfl
  · rw [UVN.system, hfv, pySplit_append 2 _ h0, pySplit_append 1 _ h1,
      pySplit_append 0 _ h2]
    rfl
  · have hrev : h.full_version.reverse =
        s4.reverse ++ '-' :: (s3.reverse ++ '-' ::
          (s0 ++ '-' :: (s1 ++ '-' :: s2)).reverse) := by
      rw [hfv]; simp
    rw [UVN.machine, pyRsplit, hrev, pySplit_append 1 _ h4', pySplit_append 0 _ h3']
    simp [pySplit]
  · have hrev : h.full_version.reverse =
        s4.reverse ++ '-' ::
          (s0 ++ '-' :: (s1 ++ '-' :: (s2 ++ '-' :: s3))).reverse := by
      rw [hfv]; simp
    rw [UVN.libc, pyRsplit, hrev, pySplit_append 0 _ h4']
    simp [pySplit]

/-- A concrete handle whose `full_version` is the usual five-segment shape. -/
def demo : UVN :=
  { path := strL "/root/.virtualenvs/demo", ctime := 7, name := strL "demo",
    version := strL "3.12.1", full_version := strL "cpython-3.12.1-linux-x86_64-gnu",
    pipFreezeOk := true, pipFreezeOut := strL "foo==1.0\nbar==2.1\n",
    pipTreeOk := true, pipTreeOut := [],
    lockOk := true, lockText := strL "version = 1\n" }

/-- Witness for C1 at `cpython-3.12.1-linux-x86_64-gnu`. -/
theorem C1_full_version_fields_witness :
    demo.implementation = strL "cpython" ∧ demo.version_segment = strL "3.12.1" ∧
      demo.system = strL "linux" ∧ demo.machine = strL "x86_64" ∧
      demo.libc = strL "gnu" :=
  C1_full_version_fields demo (strL "cpython") (strL "3.12.1") (strL "linux")
    (strL "x86_64") (strL "gnu") (by decide) (by decide) (by decide) (by decide)
    (by decide) (by decide)

/-- A handle whose `full_version` carries a dash-separated local qualifier,
`cpython-3.12-local-linux-x86_64-gnu` (six dash-delimited segments). -/
def demoLocal : UVN :=
  { demo with full_version := strL "cpython-3.12-local-linux-x86_64-gnu" }

/-- Claim C3, counterexample: on the six-segment shape
`implementation-version-local-system-machine-libc` the code returns the bare
version (without the local qualifier) for `version_segment` and the local
qualifier (not the system) for `system`. -/
theorem C3_local_qualifier_counterexample :
    demoLocal.version_segment = strL "3.12" ∧
      demoLocal.version_segment ≠ strL "3.12-local" ∧
      demoLocal.system = strL "local" ∧ demoLocal.system ≠ strL "linux" := by
  refine ⟨by decide, by decide, by decide, by decide⟩

/-- Claim C3, amended: when `full_version` has the six dash-delimited shape
`impl-ver-local-sys-mach-libc`, `version_segment` returns only segment 1
(the bare version, without the trailing local qualifier), `system` returns
segment 2 (the local qualifier, not the system segment), while `machine`
and `libc` still return the second-to-last and last segments. -/
theorem C3_local_qualifier_amended (h : UVN) (s0 s1 s2 s3 s4 s5 : List Char)
    (h0 : '-' ∉ s0) (h1 : '-' ∉ s1) (h2 : '-' ∉ s2) (_h3 : '-' ∉ s3)
    (h4 : '-' ∉ s4) (h5 : '-' ∉ s5)
    (hfv : h.full_version =
      s0 ++ '-' :: (s1 ++ '-' :: (s2 ++ '-' :: (s3 ++ '-' :: (s4 ++ '-' :: s5))))) :
    h.version_segment = s1 ∧ h.system = s2 ∧ h.machine = s4 ∧ h.libc = s5 := by
  have h4' : '-' ∉ s4.reverse := by simpa using h4
  have h5' : '-' ∉ s5.reverse := by simpa using h5
  refine ⟨?_, ?_, ?_, ?_⟩
  · rw [UVN.version_segment, hfv, pySplit_append 1 _ h0, pySplit_append 0 _ h1]; rfl
  · rw [UVN.system, hfv, pySplit_append 2 _ h0, pySplit_append 1 _ h1,
      pySplit_append 0 _ h2]
    rfl
  · have hrev : h.full_version.reverse =
        s5.reverse ++ '-' :: (s4.reverse ++ '-' ::
          (s0 ++ '-' :: (s1 ++ '-' :: (s2 ++ '-' :: s3))).reverse) := by
      rw [hfv]; simp
    rw [UVN.machine, pyRsplit, hrev, pySplit_append 1 _ h5', pySplit_append 0 _ h4']
    simp [pySplit]
  · have hrev : h.full_version.reverse =
        s5.reverse ++ '-' ::
          (s0 ++ '-' :: (s1 ++ '-' :: (s2 ++ '-' :: (s3 ++ '-' :: s4)))).reverse := by
      rw [hfv]; simp
    rw [UVN.libc, pyRsplit, hrev, pySplit_append 0 _ h5']
    simp [pySplit]

/-- Witness for the amended C3 at `cpython-3.12-local-linux-x86_64-gnu`. -/
theorem C3_local_qualifier_amended_witness :
    demoLocal.version_segment = strL "3.12" ∧ demoLocal.system = strL "local" ∧
      demoLocal.machine = strL "x86_64" ∧ demoLocal.libc = strL "gnu" :=
  C3_local_qualifier_amended demoLocal (strL "cpython") (strL "3.12") (strL "local")
    (strL "linux") (strL "x86_64") (strL "gnu") (by decide) (by decide) (by decide)
    (by decide) (by decide) (by decide) (by decide)

/-- A five-segment `full_version` whose free-threading marker sits in the
machine segment, not in the version segment. -/
def demoMachineMarker : UVN :=
  { demo with full_version := strL "cpython-3.12-linux-x86freethreaded-gnu" }

/-- Claim C4, counterexample: `is_free_threaded` is true although the
version segment (segment 1) does not contain the marker — the code tests
the whole `full_version`, not segment 1. -/
theorem C4_free_threaded_counterexample :
    demoMachineMarker.is_free_threaded = true ∧
      containsSub (strL "freethreaded") demoMachineMarker.version_segment = false := by
  refine ⟨by decide, by decide⟩

/-- Claim C4, amended: for every `full_version` of exactly five
dash-delimited segments, `is_free_threaded` is true iff ANY of the five
segments contains the free-threading marker (not specifically segment 1;
the marker contains no dash, so it cannot straddle two segments). -/
theorem C4_free_threaded_amended (h : UVN) (s0 s1 s2 s3 s4 : List Char)
    (_h0 : '-' ∉ s0) (_h1 : '-' ∉ s1) (_h2 : '-' ∉ s2) (_h3 : '-' ∉ s3)
    (_h4 : '-' ∉ s4)
    (hfv : h.full_version = s0 ++ '-' :: (s1 ++ '-' :: (s2 ++ '-' :: (s3 ++ '-' :: s4)))) :
    h.is_free_threaded = true ↔
      (strL "freethreaded" <:+: s0 ∨ strL "freethreaded" <:+: s1 ∨
        strL "freethreaded" <:+: s2 ∨ strL "freethreaded" <:+: s3 ∨
        strL "freethreaded" <:+: s4) := by
  have hm : '-' ∉ strL "freethreaded" := by decide
  rw [UVN.is_free_threaded, hfv, containsSub_iff, infix_split hm, infix_split hm,
    infix_split hm, infix_split hm]

/-- A handle with the marker attached to the version segment, the realistic
shape `cpython-3.13.0+freethreaded-linux-x86_64-gnu`. -/
def demoFreeThreaded : UVN :=
  { demo with full_version := strL "cpython-3.13.0+freethreaded-linux-x86_64-gnu" }

/-- Witness for the amended C4 at `cpython-3.13.0+freethreaded-linux-x86_64-gnu`. -/
theorem C4_free_threaded_amended_witness :
    demoFreeThreaded.is_free_threaded = true ↔
      (strL "freethreaded" <:+: strL "cpython" ∨
        strL "freethreaded" <:+: strL "3.13.0+freethreaded" ∨
        strL "freethreaded" <:+: strL "linux" ∨
        strL "freethreaded" <:+: strL "x86_64" ∨
        strL "freethreaded" <:+: strL "gnu") :=
  C4_free_threaded_amended demoFreeThreaded (strL "cpython")
    (strL "3.13.0+freethreaded") (strL "linux") (strL "x86_64") (strL "gnu")
    (by decide) (by decide) (by decide) (by decide) (by decide) (by decide)

/-- The script text produced by a first `get_script_metadata` (equivalently a
first `.py` export) over empty existing text, for the handle `demo` with the
source defaults `full=False, exact=True`. -/
def demoScriptOnce : List Char :=
  strL "#!/usr/bin/env -S uv run\n# /// script\n# requires-python = \"==3.12.1\" # cpython-3.12.1-linux-x86_64-gnu\n# ///"

/-- Claim C2, code bug: `get_script_metadata` is NOT idempotent.  Over empty
existing text the produced block ends in `# ///` with no trailing newline,
while the stripping regex demands `# ///\n`; a second application therefore
fails to detect the existing block and prepends a second one (two
`# /// script` markers instead of one), so re-exporting to the same `.py`
file duplicates metadata blocks, contradicting the documented idempotent
merge. -/
theorem C2_script_metadata_not_idempotent :
    demo.get_script_metadata [] false true = .ok demoScriptOnce ∧
      countSub (strL "# /// script") demoScriptOnce = 1 ∧
      demo.get_script_metadata demoScriptOnce false true ≠ .ok demoScriptOnce ∧
      (demo.get_script_metadata demoScriptOnce false true).map
          (countSub (strL "# /// script")) = .ok 2 := by
  refine ⟨by decide, by decide, by decide, by decide⟩

/-- Two healthy entries in iteration order whose creation times are NOT
ascending, plus the handles `UVN(path)` yields for them. -/
def demoNewer : UVN :=
  { demo with path := strL "/root/.virtualenvs/bbb", name := strL "bbb", ctime := 5 }

def demoOlder : UVN :=
  { demo with path := strL "/root/.virtualenvs/aaa", name := strL "aaa", ctime := 3 }

def demoEntries : List DirEntry :=
  [{ path := strL "/root/.virtualenvs/bbb", ctime := 5, is_dir := true,
     check := .ok demoNewer },
   { path := strL "/root/.virtualenvs/aaa", ctime := 3, is_dir := true,
     check := .ok demoOlder }]

/-- Claim C5, counterexample: `UVN.list` does not sort its result — it keeps
directory-iteration order, so a root iterated newest-first yields a list that
is not ascending in creation time. -/
theorem C5_list_counterexample :
    ¬ List.Sorted (fun a b : UVN => a.ctime ≤ b.ctime) (UVN.list demoEntries) := by
  decide

/-- Claim C5, amended: `List` constructs a handle for each immediate
subdirectory, silently excludes (never raising) every entry whose
construction fails with `MissingError` or `CorruptedError`, and returns the
remaining handles in directory-iteration order, unsorted (the reference CLI
sorts the returned list itself, using the handles' creation-time order). -/
theorem C5_list_amended (entries : List DirEntry) :
    UVN.list entries =
      entries.filterMap (fun e => if e.is_dir then e.check.toOption else none) := by
  induction entries with
  | nil => rfl
  | cons e rest ih =>
    rw [List.filterMap_cons]
    cases hd : e.is_dir with
    | false => simpa [UVN.list, hd] using ih
    | true =>
      cases hc : e.check with
      | ok env => simpa [UVN.list, hd, hc, Except.toOption] using ih
      | error err => simpa [UVN.list, hd, hc, Except.toOption] using ih

/-! ### Splitlines on break-free text -/

theorem slGo_cons_no_break (acc : List Char) (c : Char) (r : List Char)
    (hc : isLineBreak c = false) : slGo acc (c :: r) = slGo (c :: acc) r := by
  rw [slGo.eq_def]
  split <;>
    first
    | (rename_i heq; simp at heq; done)
    | (rename_i heq
       injection heq with h1 h2
       subst h1
       subst h2
       exact absurd hc (by decide))
    | (rename_i heq
       injection heq with h1 h2
       subst h1
       subst h2
       rw [hc]
       simp)

theorem slGo_no_break (s : List Char) (hnb : ∀ c ∈ s, isLineBreak c = false) :
    ∀ acc, slGo acc s = [acc.reverse ++ s] := by
  induction s with
  | nil => intro acc; simp [slGo]
  | cons c r ih =>
    intro acc
    have hc : isLineBreak c = false := hnb c (List.mem_cons_self c r)
    have hr : ∀ x ∈ r, isLineBreak x = false :=
      fun x hx => hnb x (List.mem_cons_of_mem c hx)
    rw [slGo_cons_no_break acc c r hc, ih hr (c :: acc)]
    simp

/-- A nonempty text without line boundaries is a single line. -/
theorem pySplitlines_no_break (s : List Char) (hne : s ≠ [])
    (hnb : ∀ c ∈ s, isLineBreak c = false) : pySplitlines s = [s] := by
  rw [pySplitlines]
  rw [if_neg (by simpa [List.isEmpty_iff] using hne)]
  simpa using slGo_no_break s hnb []

/-! ### Success and error shapes of the engine -/

/-- When the pip invocation of the chosen mode exits 0, `get_requirements`
returns text. -/
theorem get_requirements_isOk (h : UVN) (full exact : Bool)
    (hok : (if full then h.pipFreezeOk else h.pipTreeOk) = true) :
    ∃ r, h.get_requirements full exact = .ok r := by
  cases hr : h.get_requirements full exact with
  | ok r => exact ⟨r, rfl⟩
  | error e =>
    exfalso
    simp only [UVN.get_requirements] at hr
    rw [hok] at hr
    simp at hr

/-- The only error `get_requirements` raises is the pip `UVError`. -/
theorem get_requirements_error (h : UVN) (full exact : Bool) {e : Err}
    (he : h.get_requirements full exact = .error e) :
    e = Err.uvError (strL "Could not run pip in `" ++ h.name ++ strL "`!") := by
  simp only [UVN.get_requirements] at he
  cases hok : (if full then h.pipFreezeOk else h.pipTreeOk) with
  | false =>
    rw [hok] at he
    simp at he
    exact he.symm
  | true =>
    rw [hok] at he
    simp at he

/-- `get_dependencies` forwards exactly the `get_requirements` error. -/
theorem get_dependencies_error (h : UVN) (full exact : Bool) {e : Err}
    (he : h.get_dependencies full exact = .error e) :
    e = Err.uvError (strL "Could not run pip in `" ++ h.name ++ strL "`!") := by
  simp only [UVN.get_dependencies] at he
  cases hr : h.get_requirements full exact with
  | error e2 =>
    rw [hr] at he
    simp at he
    exact he ▸ get_requirements_error h full exact hr
  | ok r =>
    rw [hr] at he
    simp at he

theorem get_dependencies_isOk (h : UVN) (full exact : Bool)
    (hok : (if full then h.pipFreezeOk else h.pipTreeOk) = true) :
    ∃ d, h.get_dependencies full exact = .ok d := by
  cases hd : h.get_dependencies full exact with
  | ok d => exact ⟨d, rfl⟩
  | error e =>
    exfalso
    obtain ⟨r, hr⟩ := get_requirements_isOk h full exact hok
    simp only [UVN.get_dependencies] at hd
    rw [hr] at hd
    simp at hd

/-- `get_dependencies` never raises `FeatureError`. -/
theorem isFeatureError_get_dependencies (h : UVN) (full exact : Bool) :
    isFeatureError (h.get_dependencies full exact) = false := by
  cases hd : h.get_dependencies full exact with
  | ok d => rfl
  | error e => rw [get_dependencies_error h full exact hd]; rfl

/-- `get_pyproject` on empty input never raises `FeatureError`. -/
theorem isFeatureError_get_pyproject_nil (h : UVN) (full exact : Bool) :
    isFeatureError (h.get_pyproject [] full exact) = false := by
  rw [UVN.get_pyproject]
  simp only [if_pos rfl]
  cases hd : h.get_dependencies full exact with
  | ok d => rfl
  | error e => rw [get_dependencies_error h full exact hd]; rfl

/-- Claim C6: whenever the underlying requirement listing succeeds,
`get_dependencies` emits a `requires-python` constraint `==<version_segment>`
(the segment sliced from `full_version`) in exact mode and `>=<version>`
(the runtime-reported version) in inexact mode. -/
theorem C6_requires_python_constraint (h : UVN) (full exact : Bool)
    (hok : (if full then h.pipFreezeOk else h.pipTreeOk) = true) :
    ∃ rest, h.get_dependencies full exact = .ok
      (strL "requires-python = \"" ++
        (if exact then strL "==" ++ h.version_segment else strL ">=" ++ h.version) ++
        strL "\" " ++ rest) := by
  obtain ⟨r, hr⟩ := get_requirements_isOk h full exact hok
  refine ⟨(pySplitlines r).getD 0 [] ++
    (if List.intercalate (strL "\n")
        (((pySplitlines r).drop 1).map (fun x => strL "    \"" ++ x ++ strL "\",")) = []
      then []
      else strL "\ndependencies = [\n" ++ List.intercalate (strL "\n")
        (((pySplitlines r).drop 1).map (fun x => strL "    \"" ++ x ++ strL "\",")) ++
        strL "\n]"), ?_⟩
  simp only [UVN.get_dependencies]
  rw [hr]
  simp

/-- Witness for C6 on the handle `demo` in exact full mode. -/
theorem C6_requires_python_constraint_witness :
    ∃ rest, demo.get_dependencies true true = .ok
      (strL "requires-python = \"" ++
        (if true then strL "==" ++ demo.version_segment else strL ">=" ++ demo.version) ++
        strL "\" " ++ rest) :=
  C6_requires_python_constraint demo true true rfl

/-- The only error `get_pyproject` can raise on empty input is pip's
`UVError`. -/
theorem get_pyproject_nil_error (h : UVN) {full exact : Bool} {e : Err}
    (he : h.get_pyproject [] full exact = .error e) : ∃ m, e = Err.uvError m := by
  simp only [UVN.get_pyproject, if_pos rfl] at he
  cases hd : h.get_dependencies full exact with
  | error e2 =>
    rw [hd] at he
    simp at he
    subst he
    exact ⟨_, get_dependencies_error h full exact hd⟩
  | ok d =>
    rw [hd] at he
    simp at he

/-- Claim C7: `get_pyproject` raises `FeatureError` iff its existing-text
argument is nonempty; on empty text (and a successful requirement listing)
it returns the `[project]` stanza followed by the dependencies text; and the
`.toml` branch of `export` raises that `FeatureError` whenever the target
file exists with content. -/
theorem C7_pyproject_refuses_existing :
    (∀ (h : UVN) (text : List Char) (full exact : Bool),
        isFeatureError (h.get_pyproject text full exact) = true ↔ text ≠ []) ∧
    (∀ (h : UVN) (full exact : Bool),
        (if full then h.pipFreezeOk else h.pipTreeOk) = true →
        ∃ d, h.get_dependencies full exact = .ok d ∧
          h.get_pyproject [] full exact = .ok
            (strL "[project]\nname = \"" ++ h.name ++
              strL "\"\ndynamic = [\"version\"]\n" ++ d)) ∧
    (∀ (h : UVN) (t : Target) (full exact : Option Bool) (quiet : Bool),
        t.suffix = strL ".toml" → t.present = true → t.content ≠ [] →
        h.export t full exact quiet =
          .error (Err.featureError (strL "Cannot yet update TOML files."))) := by
  refine ⟨?_, ?_, ?_⟩
  · intro h text full exact
    by_cases ht : text = []
    · subst ht
      simp [isFeatureError_get_pyproject_nil h full exact]
    · simp only [UVN.get_pyproject, if_neg ht]
      simp [isFeatureError, ht]
  · intro h full exact hok
    obtain ⟨d, hd⟩ := get_dependencies_isOk h full exact hok
    refine ⟨d, hd, ?_⟩
    simp only [UVN.get_pyproject, if_pos rfl]
    rw [hd]
    simp
  · intro h t full exact quiet hsuf hp hc
    simp only [UVN.export, hsuf]
    rw [if_neg (by decide)]
    simp [UVN.get_pyproject, hp, hc]

/-- A `.toml` export target that already holds content. -/
def demoToml : Target :=
  { name := strL "proj.toml", suffix := strL ".toml", present := true,
    content := strL "[project]\n" }

/-- Witness for C7: a nonempty manifest is refused (directly and through
`export`), and empty text yields the stanza plus dependencies. -/
theorem C7_pyproject_refuses_existing_witness :
    isFeatureError (demo.get_pyproject (strL "[project]\n") false true) = true ∧
      (∃ d, demo.get_dependencies true true = .ok d ∧
        demo.get_pyproject [] true true = .ok
          (strL "[project]\nname = \"" ++ demo.name ++
            strL "\"\ndynamic = [\"version\"]\n" ++ d)) ∧
      demo.export demoToml none none false =
        .error (Err.featureError (strL "Cannot yet update TOML files.")) :=
  ⟨(C7_pyproject_refuses_existing.1 demo (strL "[project]\n") false true).mpr
      (by decide),
   C7_pyproject_refuses_existing.2.1 demo true true rfl,
   C7_pyproject_refuses_existing.2.2 demo demoToml none none false rfl rfl
      (by decide)⟩

/-- Claim C8: `get_lock` returns lock-file text only when the resolver exits
zero, in which case it is exactly the produced `uv.lock` content (never a
partial text); any non-zero resolver exit yields a `UVError`. -/
theorem C8_get_lock_all_or_nothing (h : UVN) (quiet : Bool) :
    (∀ t, h.get_lock quiet = .ok t → h.lockOk = true ∧ t = h.lockText) ∧
    (h.lockOk = false → ∃ m, h.get_lock quiet = .error (Err.uvError m)) := by
  constructor
  · intro t ht
    simp only [UVN.get_lock] at ht
    cases hp : h.get_pyproject [] true true with
    | error e =>
      rw [hp] at ht
      simp at ht
    | ok p =>
      rw [hp] at ht
      cases hl : h.lockOk with
      | false =>
        rw [hl] at ht
        simp at ht
      | true =>
        rw [hl] at ht
        simp at ht
        exact ⟨rfl, ht.symm⟩
  · intro hl
    cases hp : h.get_pyproject [] true true with
    | error e =>
      obtain ⟨m, rfl⟩ := get_pyproject_nil_error h hp
      refine ⟨m, ?_⟩
      simp only [UVN.get_lock]
      rw [hp]
    | ok p =>
      refine ⟨strL "Could not generate the lock file for `" ++ h.name ++ strL "`!", ?_⟩
      simp only [UVN.get_lock]
      rw [hp, hl]
      simp

/-- A handle whose resolver invocation fails. -/
def demoLockFail : UVN := { demo with lockOk := false }

/-- Witness for C8: the good handle's lock round-trips, and the failing
handle raises `UVError`. -/
theorem C8_get_lock_all_or_nothing_witness :
    (demo.lockOk = true ∧ demo.lockText = demo.lockText) ∧
      (∃ m, demoLockFail.get_lock true = .error (Err.uvError m)) :=
  ⟨(C8_get_lock_all_or_nothing demo true).1 demo.lockText (by decide),
   (C8_get_lock_all_or_nothing demoLockFail true).2 rfl⟩

/-- Deleting every entry at a path makes the path not exist. -/
theorem pathExists_rmtree (fs : List DirEntry) (p : List Char) :
    pathExists (rmtree fs p) p = false := by
  induction fs with
  | nil => rfl
  | cons e rest ih =>
    by_cases he : (e.path == p) = true
    · have hstep : rmtree (e :: rest) p = rmtree rest p := by
        simp [rmtree, List.filter_cons, he]
      rw [hstep]
      exact ih
    · have hb : (e.path == p) = false := by
        cases hx : (e.path == p) with
        | true => exact absurd hx he
        | false => rfl
      have hstep : rmtree (e :: rest) p = e :: rmtree rest p := by
        simp [rmtree, List.filter_cons, hb]
      rw [hstep]
      simpa [pathExists, List.any_cons, hb] using ih

/-- Claim C9: `remove` with `strict=false` deletes the directory and returns
`true` when `root/name` exists, returns `false` without raising when it does
not, and a second removal of the same name therefore returns `false`. -/
theorem C9_remove_nonstrict (name root : List Char) (fs : List DirEntry) :
    (pathExists fs (pathJoin root name) = true →
        UVN.remove name root false fs =
          .ok (true, rmtree fs (pathJoin root name)) ∧
        pathExists (rmtree fs (pathJoin root name)) (pathJoin root name) = false ∧
        UVN.remove name root false (rmtree fs (pathJoin root name)) =
          .ok (false, rmtree fs (pathJoin root name))) ∧
    (pathExists fs (pathJoin root name) = false →
        UVN.remove name root false fs = .ok (false, fs)) := by
  constructor
  · intro hex
    refine ⟨?_, pathExists_rmtree fs (pathJoin root name), ?_⟩
    · simp [UVN.remove, removeLoose, hex]
    · simp [UVN.remove, removeLoose, pathExists_rmtree]
  · intro hex
    simp [UVN.remove, removeLoose, hex]

/-- A filesystem with a single environment directory `/root/.virtualenvs/demo`. -/
def demoFs : List DirEntry :=
  [{ path := strL "/root/.virtualenvs/demo", ctime := 7, is_dir := true,
     check := .ok demo }]

/-- Witness for C9: removing `demo` under `/root/.virtualenvs` succeeds and
a second removal returns `false`; removing a missing name returns `false`. -/
theorem C9_remove_nonstrict_witness :
    (UVN.remove (strL "demo") (strL "/root/.virtualenvs") false demoFs =
        .ok (true, rmtree demoFs (pathJoin (strL "/root/.virtualenvs") (strL "demo"))) ∧
      pathExists (rmtree demoFs (pathJoin (strL "/root/.virtualenvs") (strL "demo")))
        (pathJoin (strL "/root/.virtualenvs") (strL "demo")) = false ∧
      UVN.remove (strL "demo") (strL "/root/.virtualenvs") false
          (rmtree demoFs (pathJoin (strL "/root/.virtualenvs") (strL "demo"))) =
        .ok (false, rmtree demoFs (pathJoin (strL "/root/.virtualenvs") (strL "demo")))) ∧
      UVN.remove (strL "gone") (strL "/root/.virtualenvs") false demoFs =
        .ok (false, demoFs) :=
  ⟨(C9_remove_nonstrict (strL "demo") (strL "/root/.virtualenvs") demoFs).1 (by decide),
   (C9_remove_nonstrict (strL "gone") (strL "/root/.virtualenvs") demoFs).2 (by decide)⟩

/-! ### Characters of split parts come from the split string -/

theorem mem_splitFirst {sep : Char} {s a b : List Char}
    (h : splitFirst sep s = some (a, b)) :
    (∀ c ∈ a, c ∈ s) ∧ (∀ c ∈ b, c ∈ s) := by
  induction s generalizing a b with
  | nil => simp [splitFirst] at h
  | cons x r ih =>
    simp only [splitFirst] at h
    by_cases hx : x = sep
    · rw [if_pos hx] at h
      simp only [Option.some.injEq, Prod.mk.injEq] at h
      obtain ⟨h1, h2⟩ := h
      subst h1
      subst h2
      refine ⟨fun c hc => absurd hc (List.not_mem_nil c), ?_⟩
      exact fun c hc => List.mem_cons_of_mem x hc
    · rw [if_neg hx] at h
      cases hsf : splitFirst sep r with
      | none => rw [hsf] at h; simp at h
      | some p =>
        obtain ⟨a2, b2⟩ := p
        rw [hsf] at h
        simp only [Option.some.injEq, Prod.mk.injEq] at h
        obtain ⟨h1, h2⟩ := h
        subst h1
        subst h2
        obtain ⟨iha, ihb⟩ := ih hsf
        refine ⟨?_, fun c hc => List.mem_cons_of_mem x (ihb c hc)⟩
        intro c hc
        rcases List.mem_cons.mp hc with rfl | hc
        · exact List.mem_cons_self _ _
        · exact List.mem_cons_of_mem x (iha c hc)

theorem mem_pySplit {sep : Char} {n : Nat} {s part : List Char}
    (hp : part ∈ pySplit sep n s) : ∀ c ∈ part, c ∈ s := by
  induction n generalizing s part with
  | zero =>
    simp only [pySplit, List.mem_singleton] at hp
    subst hp
    exact fun c hc => hc
  | succ n ih =>
    simp only [pySplit] at hp
    cases hsf : splitFirst sep s with
    | none =>
      rw [hsf] at hp
      simp only [List.mem_singleton] at hp
      subst hp
      exact fun c hc => hc
    | some p =>
      obtain ⟨a, b⟩ := p
      rw [hsf] at hp
      rcases List.mem_cons.mp hp with rfl | hp
      · exact (mem_splitFirst hsf).1
      · exact fun c hc => (mem_splitFirst hsf).2 c (ih hp c hc)

/-- Every character of the derived `version_segment` occurs in
`full_version` (it is a slice of it). -/
theorem mem_version_segment (h : UVN) {c : Char} (hc : c ∈ h.version_segment) :
    c ∈ h.full_version := by
  rw [UVN.version_segment, List.getD_eq_getElem?_getD] at hc
  by_cases hlen : 1 < (pySplit '-' 2 h.full_version).length
  · rw [List.getElem?_eq_getElem hlen] at hc
    simp only [Option.getD_some] at hc
    exact mem_pySplit (List.getElem_mem hlen) c hc
  · rw [List.getElem?_eq_none (by omega)] at hc
    simp at hc

/-- Claim C10: when the requirement listing yields zero packages — the
requirements text is exactly the `# full_version` header line — then in both
modes `get_dependencies` returns a single `requires-python` line carrying
that header comment and omits the `dependencies = [...]` array entirely. -/
theorem C10_zero_packages (h : UVN) (full exact : Bool)
    (hreq : h.get_requirements full exact = .ok (strL "# " ++ h.full_version))
    (hfv : ∀ c ∈ h.full_version, isLineBreak c = false)
    (hver : ∀ c ∈ h.version, isLineBreak c = false) :
    h.get_dependencies full exact = .ok
      (strL "requires-python = \"" ++
        (if exact then strL "==" ++ h.version_segment else strL ">=" ++ h.version) ++
        strL "\" " ++ (strL "# " ++ h.full_version)) ∧
    pySplitlines
        (strL "requires-python = \"" ++
          (if exact then strL "==" ++ h.version_segment else strL ">=" ++ h.version) ++
          strL "\" " ++ (strL "# " ++ h.full_version)) =
      [strL "requires-python = \"" ++
        (if exact then strL "==" ++ h.version_segment else strL ">=" ++ h.version) ++
        strL "\" " ++ (strL "# " ++ h.full_version)] := by
  have hhdr : ∀ c ∈ strL "# " ++ h.full_version, isLineBreak c = false := by
    intro c hc
    rcases List.mem_append.mp hc with hc | hc
    · exact (by decide : ∀ c ∈ strL "# ", isLineBreak c = false) c hc
    · exact hfv c hc
  have hline : pySplitlines (strL "# " ++ h.full_version) =
      [strL "# " ++ h.full_version] :=
    pySplitlines_no_break _
      (List.append_ne_nil_of_left_ne_nil (by decide) _) hhdr
  constructor
  · simp only [UVN.get_dependencies]
    rw [hreq]
    simp [hline, List.intercalate]
  · apply pySplitlines_no_break
    · exact List.append_ne_nil_of_left_ne_nil
        (List.append_ne_nil_of_left_ne_nil
          (List.append_ne_nil_of_left_ne_nil (by decide) _) _) _
    · intro c hc
      rcases List.mem_append.mp hc with hc | hc
      · rcases List.mem_append.mp hc with hc | hc
        · rcases List.mem_append.mp hc with hc | hc
          · exact (by decide : ∀ c ∈ strL "requires-python = \"",
              isLineBreak c = false) c hc
          · cases exact with
            | true =>
              rw [if_pos rfl] at hc
              rcases List.mem_append.mp hc with hc | hc
              · exact (by decide : ∀ c ∈ strL "==", isLineBreak c = false) c hc
              · exact hfv c (mem_version_segment h hc)
            | false =>
              rw [if_neg (by decide)] at hc
              rcases List.mem_append.mp hc with hc | hc
              · exact (by decide : ∀ c ∈ strL ">=", isLineBreak c = false) c hc
              · exact hver c hc
        · exact (by decide : ∀ c ∈ strL "\" ", isLineBreak c = false) c hc
      · exact hhdr c hc

/-- A handle whose `uv pip tree -d 0` output is empty (no packages). -/
theorem C10_zero_packages_witness :
    demo.get_dependencies false true = .ok
      (strL "requires-python = \"" ++
        (if true then strL "==" ++ demo.version_segment else strL ">=" ++ demo.version) ++
        strL "\" " ++ (strL "# " ++ demo.full_version)) ∧
    pySplitlines
        (strL "requires-python = \"" ++
          (if true then strL "==" ++ demo.version_segment else strL ">=" ++ demo.version) ++
          strL "\" " ++ (strL "# " ++ demo.full_version)) =
      [strL "requires-python = \"" ++
        (if true then strL "==" ++ demo.version_segment else strL ">=" ++ demo.version) ++
        strL "\" " ++ (strL "# " ++ demo.full_version)] :=
  C10_zero_packages demo false true (by decide) (by decide) (by decide)

end Uvn
